import Mathlib

/-!
Verification of the council cluster-membership library.

This file gives a shallow embedding of the library's membership core:
node identities (src/node.rs), the cluster-view CvRDT (src/cluster/views.rs),
the version vector (src/cluster/version_vector.rs), the convergence monitor
(src/cluster/convergence_monitor.rs), the phi-accrual failure detector
(src/cluster/failure_detector.rs), gossip destination selection
(src/cluster/gossip_destinations.rs) and the cluster state machine
(src/cluster.rs), and proves or refutes the specified properties.

Modelling conventions:
- Rust `u64`/`u16` counters are `Nat`; where the source performs wrapping
  arithmetic the reduction modulo `2 ^ w` is written explicitly.
- `HashMap<K, V>` is an association list `List (K × V)`; `get` is the first
  matching entry, `insert` replaces the first matching entry or appends.
  Hash-map iteration order is arbitrary in the source, so functions that
  iterate a map are total over every list order.
- `Instant` and `Duration` values are real numbers (seconds), `f64`
  computations are real-number computations.
- Rust methods that mutate `&mut self` become functions returning the
  updated value.
-/

namespace Council

/-- Node identity, from src/node.rs: a hash of the advertised URL plus the
start time in seconds since the epoch (both u64). -/
structure NodeId where
  unique_id : Nat
  generation : Nat
deriving DecidableEq

/-- Node membership status, from src/node.rs (`repr u8`, Ord derived from
the declaration order Joining < Up < Leaving < Exiting < Down). -/
inductive NodeStatus where
  | Joining
  | Up
  | Leaving
  | Exiting
  | Down
deriving DecidableEq

/-- The u8 discriminant of a status, which drives the derived Rust `Ord`. -/
def NodeStatus.priority : NodeStatus → Nat
  | .Joining => 1
  | .Up => 2
  | .Leaving => 3
  | .Exiting => 4
  | .Down => 5

/-- Rust `std::cmp::max` on `NodeStatus` (returns the second argument when
the two compare equal). -/
def NodeStatus.maxStatus (a b : NodeStatus) : NodeStatus :=
  if b.priority < a.priority then a else b

/-- Advertised URLs are treated as opaque strings. -/
abbrev Url := String

/-- State carried by a member view, from src/cluster/views.rs. -/
structure MemberViewState where
  node_status : NodeStatus
  version : Nat
  heartbeat : Nat
deriving DecidableEq

/-- A view of one cluster member, from src/cluster/views.rs. -/
structure MemberView where
  id : NodeId
  advertised_addr : Url
  state : Option MemberViewState
deriving DecidableEq

/-- MemberView::merge from src/cluster/views.rs (lines 119-161), written
with the same arm order as the Rust `match`.  The version bump uses u16
wrapping arithmetic. -/
def MemberView.merge (self incoming : MemberView) : MemberView :=
  if self.id.generation < incoming.id.generation then
    incoming
  else if incoming.id.generation = self.id.generation then
    match self.state, incoming.state with
    | none, some s => { self with state := some s }
    | some self_state, some incoming_state =>
      if self_state.version < incoming_state.version then
        { self with
          state := some
            { node_status := incoming_state.node_status
              version := incoming_state.version
              heartbeat := max self_state.heartbeat incoming_state.heartbeat } }
      else if incoming_state.version < self_state.version then
        { self with
          state := some
            { self_state with
              heartbeat := max self_state.heartbeat incoming_state.heartbeat } }
      else if self_state.node_status ≠ incoming_state.node_status then
        { self with
          state := some
            { node_status := NodeStatus.maxStatus self_state.node_status incoming_state.node_status
              version := (self_state.version + 1) % 2 ^ 16
              heartbeat := max self_state.heartbeat incoming_state.heartbeat } }
      else
        self
    | _, _ => self
  else
    self

/-! Association lists standing in for `HashMap<NodeId, _>`. -/

/-- First entry stored under key `k` (`HashMap::get`). -/
def lookupKey {β : Type _} (k : NodeId) : List (NodeId × β) → Option β
  | [] => none
  | (k', v) :: rest => if k' = k then some v else lookupKey k rest

/-- Replace the first entry stored under key `k`, or append a fresh entry
(`HashMap::insert`, and in-place mutation through `get_mut`). -/
def insertKey {β : Type _} (k : NodeId) (v : β) : List (NodeId × β) → List (NodeId × β)
  | [] => [(k, v)]
  | (k', v') :: rest => if k' = k then (k, v) :: rest else (k', v') :: insertKey k v rest

/-- The keys of a map (`HashMap::keys`). -/
def keysOf {β : Type _} (l : List (NodeId × β)) : List NodeId :=
  l.map Prod.fst

/-- VersionVector from src/cluster/version_vector.rs: node id → last seen
version (u16). -/
structure VersionVector where
  versions : List (NodeId × Nat)
deriving DecidableEq

/-- The running node's view of the whole cluster, from src/cluster/views.rs. -/
structure ClusterView where
  known_members : List (NodeId × MemberView)
  version_vector : VersionVector
  heartbeats : List (NodeId × Nat)
deriving DecidableEq

/-- A gossip payload, from src/cluster/views.rs. -/
structure PartialClusterView where
  this_node_id : NodeId
  members : List (NodeId × MemberView)
deriving DecidableEq

/-- MemberView::this_node_initial_view from src/cluster/views.rs. -/
def MemberView.this_node_initial_view (id : NodeId) (advertised_url : Url) : MemberView :=
  { id
    advertised_addr := advertised_url
    state := some { node_status := .Joining, heartbeat := 0, version := 1 } }

/-- ClusterView::initial from src/cluster/views.rs. -/
def ClusterView.initial (this_node_id : NodeId) (this_node_advertised_url : Url) : ClusterView :=
  let this_node := MemberView.this_node_initial_view this_node_id this_node_advertised_url
  { known_members := insertKey this_node_id this_node []
    version_vector := ⟨insertKey this_node_id ((this_node.state.map (·.version)).getD 0) []⟩
    heartbeats := insertKey this_node.id ((this_node.state.map (·.heartbeat)).getD 0) [] }

/-- Body of the loop in ClusterView::merge_partial_cluster_view
(src/cluster/views.rs lines 50-75), for one incoming member.  When the
member is already known the source merges in place behind `get_mut` (the
map key stays the lookup key) and then re-projects version and heartbeat
under the merged view's own id. -/
def ClusterView.mergeOneMember (cv : ClusterView) (other_node : MemberView) : ClusterView :=
  match lookupKey other_node.id cv.known_members with
  | some existing_member_view =>
    let merged := existing_member_view.merge other_node
    { known_members := insertKey other_node.id merged cv.known_members
      version_vector := ⟨insertKey merged.id ((merged.state.map (·.version)).getD 0) cv.version_vector.versions⟩
      heartbeats := insertKey merged.id ((merged.state.map (·.heartbeat)).getD 0) cv.heartbeats }
  | none =>
    { known_members := insertKey other_node.id other_node cv.known_members
      version_vector := ⟨insertKey other_node.id ((other_node.state.map (·.version)).getD 0) cv.version_vector.versions⟩
      heartbeats := insertKey other_node.id ((other_node.state.map (·.heartbeat)).getD 0) cv.heartbeats }

/-- ClusterView::merge_partial_cluster_view from src/cluster/views.rs
(lines 49-76).  The source iterates the incoming map in arbitrary hash
order; the fold covers every order since the member list is universally
quantified. -/
def ClusterView.merge_partial_cluster_view (cv : ClusterView) (other_view : PartialClusterView) : ClusterView :=
  other_view.members.foldl (fun acc p => acc.mergeOneMember p.2) cv

/-- ClusterView::record_heartbeat from src/cluster/views.rs (lines 78-88):
`entry(node_id).or_default()` inserts 0 when absent, the entry is then set
to the max, and the member state's heartbeat (when present) is set to the
max as well. -/
def ClusterView.record_heartbeat (cv : ClusterView) (node_id : NodeId) (heartbeat : Nat) : ClusterView :=
  let existing_heartbeat := (lookupKey node_id cv.heartbeats).getD 0
  let heartbeats' := insertKey node_id (max heartbeat existing_heartbeat) cv.heartbeats
  let known_members' :=
    match lookupKey node_id cv.known_members with
    | some m =>
      match m.state with
      | some state =>
        insertKey node_id
          { m with state := some { state with heartbeat := max heartbeat state.heartbeat } }
          cv.known_members
      | none => cv.known_members
    | none => cv.known_members
  { cv with heartbeats := heartbeats', known_members := known_members' }

/-- VersionVectorOffset from src/cluster/version_vector.rs (lines 36-64):
the nodes for which the LHS vector holds a strictly newer (or missing on
the RHS) version.  The source's `HashSet` is a deduplicating list. -/
structure VersionVectorOffset where
  lhs : VersionVector
  rhs : VersionVector
  behind_lhs : List NodeId
deriving DecidableEq

/-- Insertion into a `HashSet<NodeId>`. -/
def hashSetInsert (k : NodeId) (s : List NodeId) : List NodeId :=
  if k ∈ s then s else s ++ [k]

/-- VersionVectorOffset::of from src/cluster/version_vector.rs. -/
def VersionVectorOffset.of (lhs rhs : VersionVector) : VersionVectorOffset :=
  { lhs, rhs
    behind_lhs :=
      lhs.versions.foldl
        (fun acc p =>
          match lookupKey p.1 rhs.versions with
          | some rhs_version => if rhs_version < p.2 then hashSetInsert p.1 acc else acc
          | none => hashSetInsert p.1 acc)
        [] }

/-- ConvergenceMonitor from src/cluster/convergence_monitor.rs: the last
version vector observed from each peer.  The file is present in the
repository but not referenced from the `mod` tree of src/cluster.rs; it is
translated here because Cluster::select_gossip_destinations reads the
`convergence_monitor` field. -/
structure ConvergenceMonitor where
  this_node_id : NodeId
  observed_states_per_node : List (NodeId × VersionVector)
deriving DecidableEq

/-- ConvergenceMonitor::get from src/cluster/convergence_monitor.rs. -/
def ConvergenceMonitor.get (cm : ConvergenceMonitor) (node_id : NodeId) : Option VersionVector :=
  lookupKey node_id cm.observed_states_per_node

/-! The phi-accrual failure detector, from src/cluster/failure_detector.rs.
`Instant` and `Duration` become real numbers (seconds); the `f64`
statistics become real numbers.  `Instant::now()` becomes an explicit
`now` argument. -/

/-- HEARTBEAT_INTERVALS_WINDOW_SIZE from src/cluster/failure_detector.rs. -/
def HEARTBEAT_INTERVALS_WINDOW_SIZE : Nat := 100

/-- Per-peer state of the failure detector, from
src/cluster/failure_detector.rs (field names follow the source, typos
included). -/
structure FailureDetectorMember where
  last_heartbeat : Nat
  last_heartbeat_received_at : ℝ
  heartbeats_intervals : List ℝ
  heartbeats_intervals_mean : Option ℝ
  hearbeats_interval_std_dev : Option ℝ
  heartbeats_min_interval : Option ℝ
  heartbeats_max_interval : Option ℝ

/-- FailureDetectorMember::new from src/cluster/failure_detector.rs. -/
def FailureDetectorMember.new (now : ℝ) (last_heartbeat : Nat) : FailureDetectorMember :=
  { last_heartbeat
    last_heartbeat_received_at := now
    heartbeats_intervals := []
    hearbeats_interval_std_dev := none
    heartbeats_intervals_mean := none
    heartbeats_min_interval := none
    heartbeats_max_interval := none }

/-- FailureDetectorMember::insert_interval from
src/cluster/failure_detector.rs: evict the front of the window at
capacity, update min and max (`std::cmp::min`/`max` on `Option`, with the
`None` case handled by the source's `is_none` branch), push the new
interval. -/
noncomputable def FailureDetectorMember.insert_interval
    (m : FailureDetectorMember) (interval : ℝ) : FailureDetectorMember :=
  let intervals :=
    if m.heartbeats_intervals.length = HEARTBEAT_INTERVALS_WINDOW_SIZE then
      m.heartbeats_intervals.tail
    else
      m.heartbeats_intervals
  let min' :=
    match m.heartbeats_min_interval with
    | none => some interval
    | some mn => some (min mn interval)
  let max' :=
    match m.heartbeats_max_interval with
    | none => some interval
    | some mx => some (max mx interval)
  { m with
    heartbeats_intervals := intervals ++ [interval]
    heartbeats_min_interval := min'
    heartbeats_max_interval := max' }

/-- FailureDetectorMember::refresh_stats from
src/cluster/failure_detector.rs: mean, and standard deviation as the
square root of the population variance, over the interval window. -/
noncomputable def FailureDetectorMember.refresh_stats
    (m : FailureDetectorMember) : FailureDetectorMember :=
  let count := m.heartbeats_intervals.length
  if 0 < count then
    let sum := m.heartbeats_intervals.sum
    let mean_heartbeat_duration := sum / count
    let variance :=
      (m.heartbeats_intervals.map
        (fun interval =>
          (mean_heartbeat_duration - interval) * (mean_heartbeat_duration - interval))).sum / count
    let std_dev := Real.sqrt variance
    { m with
      heartbeats_intervals_mean := some mean_heartbeat_duration
      hearbeats_interval_std_dev := some std_dev }
  else
    { m with
      heartbeats_intervals_mean := none
      hearbeats_interval_std_dev := none }

/-- FailureDetectorMember::phi from src/cluster/failure_detector.rs
(lines 137-152): with stats absent there is no phi; otherwise
`1 - log10(0.5 * (mean - x) / (stddev * sqrt 2))` where `x` is the time
elapsed since the last heartbeat was received. -/
noncomputable def FailureDetectorMember.phi
    (m : FailureDetectorMember) (now : ℝ) : Option ℝ :=
  match m.heartbeats_intervals_mean, m.hearbeats_interval_std_dev with
  | some mean, some std_dev =>
    let x := now - m.last_heartbeat_received_at
    let cdf_at_x := 0.5 * (mean - x) / (std_dev * Real.sqrt 2)
    some (1 - Real.logb 10 cdf_at_x)
  | _, _ => none

/-- FailureDetectorMember::record_heartbeat from
src/cluster/failure_detector.rs (lines 168-180): synthesize
`incoming - stored` (u64 difference truncated `as u32`) equally spaced
intervals of the elapsed time and push them into the window, then refresh
the statistics.  Only called with `stored < incoming`, so the count is
positive unless the u32 truncation wraps. -/
noncomputable def FailureDetectorMember.record_heartbeat
    (m : FailureDetectorMember) (now : ℝ) (last_heartbeat : Nat) : FailureDetectorMember :=
  let elapsed_time := now - m.last_heartbeat_received_at
  let received_heartbeats_since_last_record : Nat := (last_heartbeat - m.last_heartbeat) % 2 ^ 32
  let mean_heartbeat_time := elapsed_time / (received_heartbeats_since_last_record : ℝ)
  let m' :=
    (List.range received_heartbeats_since_last_record).foldl
      (fun acc _ => acc.insert_interval mean_heartbeat_time) m
  FailureDetectorMember.refresh_stats
    { m' with
      last_heartbeat := last_heartbeat
      last_heartbeat_received_at := now }

/-- FailureDetector from src/cluster/failure_detector.rs. -/
structure FailureDetector where
  this_node_id : NodeId
  members : List (NodeId × FailureDetectorMember)
  phi_treshold : ℝ

/-- FailureDetector::new from src/cluster/failure_detector.rs. -/
def FailureDetector.new (this_node_id : NodeId) : FailureDetector :=
  { this_node_id, members := [], phi_treshold := 8 }

/-- FailureDetector::record_heartbeat from src/cluster/failure_detector.rs
(lines 37-50): update the member only when the incoming heartbeat is
strictly greater than the stored one, create a fresh entry for an unknown
peer, and otherwise do nothing. -/
noncomputable def FailureDetector.record_heartbeat
    (fd : FailureDetector) (now : ℝ) (node_id : NodeId) (last_heartbeat : Nat) : FailureDetector :=
  match lookupKey node_id fd.members with
  | some member =>
    if member.last_heartbeat < last_heartbeat then
      { fd with members := insertKey node_id (member.record_heartbeat now last_heartbeat) fd.members }
    else
      fd
  | none =>
    { fd with members := insertKey node_id (FailureDetectorMember.new now last_heartbeat) fd.members }

/-- FailureDetector::is_live from src/cluster/failure_detector.rs
(lines 56-62): `members.get(&id).and_then(phi).map(|phi| phi < threshold)
.unwrap_or(false)` — a peer without an entry, or without a phi value, is
not live. -/
def FailureDetector.is_live (fd : FailureDetector) (node_id : NodeId) (now : ℝ) : Prop :=
  match lookupKey node_id fd.members with
  | some member =>
    match member.phi now with
    | some phi => phi < fd.phi_treshold
    | none => False
  | none => False

/-- The membership state owned by the actor, from src/cluster.rs
(field spelling follows the source).  src/cluster/gossip_destinations.rs
reads a `convergence_monitor` field through `self`, although the struct
declaration in src/cluster.rs omits it (the repository carries several
historical layers); the field is included here so that destination
selection can be translated as written. -/
structure Cluster where
  this_node_id : NodeId
  this_advertised_url : Url
  cluster_view : ClusterView
  peer_nodes : List Url
  unknwon_peer_nodes : List Url
  failure_detector : FailureDetector
  convergence_monitor : ConvergenceMonitor

/-- Cluster::increment_own_heartbeat from src/cluster.rs (lines 47-62):
bump the own entry of the heartbeats map when present, then bump the own
member state's heartbeat; the source panics (`none` here) when the own
member or its state is missing. -/
def Cluster.increment_own_heartbeat (c : Cluster) : Option Cluster :=
  let heartbeats' :=
    match lookupKey c.this_node_id c.cluster_view.heartbeats with
    | some heartbeat => insertKey c.this_node_id (heartbeat + 1) c.cluster_view.heartbeats
    | none => c.cluster_view.heartbeats
  match lookupKey c.this_node_id c.cluster_view.known_members with
  | some member =>
    match member.state with
    | some state =>
      some
        { c with
          cluster_view :=
            { c.cluster_view with
              heartbeats := heartbeats'
              known_members :=
                insertKey c.this_node_id
                  { member with state := some { state with heartbeat := state.heartbeat + 1 } }
                  c.cluster_view.known_members } }
    | none => none
  | none => none

/-! Gossip destination selection, from src/cluster/gossip_destinations.rs.
The source hands each selected destination to a callback; the model
returns the list of dispatched exchanges instead.  `HashSet`/`HashMap`
iteration order is arbitrary, so the loops run over the (universally
quantified) list order, and `choose_multiple(rng, amount)` — which yields
`min(amount, len)` elements of the list in random order — is modelled by
`List.take amount`. -/

/-- GOSSIP_DESTINATIONS_SAMPLE_SIZE from src/cluster/gossip_destinations.rs
(line 14): the constant is five. -/
def GOSSIP_DESTINATIONS_SAMPLE_SIZE : Nat := 5

/-- Cluster::collect_partial_cluster_view_of_newer_nodes from
src/cluster/gossip_destinations.rs (lines 102-132). -/
def Cluster.collect_partial_cluster_view_of_newer_nodes
    (c : Cluster) (node_id : NodeId) : Option PartialClusterView :=
  ((c.convergence_monitor.get node_id).map
    (fun rhs =>
      let offset := VersionVectorOffset.of c.cluster_view.version_vector rhs
      offset.behind_lhs.filterMap
        (fun nid => (lookupKey nid c.cluster_view.known_members).map (fun n => (nid, n))))).bind
    (fun destinations =>
      if destinations.isEmpty then
        none
      else
        some { this_node_id := c.this_node_id, members := destinations })

/-- First loop of Cluster::select_gossip_destinations (lines 39-57): walk
the unknown peer URLs and dispatch a full cluster view to each, stopping
once the counter reaches the sample size.  Returns the dispatches and the
final counter. -/
def Cluster.gossipUnknownLoop (c : Cluster) :
    List Url → Nat → List (Url × PartialClusterView) × Nat
  | [], cluster_view_exchanges => ([], cluster_view_exchanges)
  | url :: rest, cluster_view_exchanges =>
    if GOSSIP_DESTINATIONS_SAMPLE_SIZE ≤ cluster_view_exchanges then
      ([], cluster_view_exchanges)
    else
      let view : PartialClusterView :=
        { this_node_id := c.this_node_id, members := c.cluster_view.known_members }
      let rec_result := c.gossipUnknownLoop rest (cluster_view_exchanges + 1)
      ((url, view) :: rec_result.1, rec_result.2)

/-- Second loop of Cluster::select_gossip_destinations (lines 59-80): walk
the known members, skip the running node, dispatch a partial view to
members the convergence monitor reports as lagging, and collect the other
members' addresses as heartbeat-exchange candidates.  Returns the
dispatches, the candidates (in walk order), and the final counter. -/
def Cluster.gossipKnownLoop (c : Cluster) :
    List (NodeId × MemberView) → Nat →
    List (Url × PartialClusterView) × List Url × Nat
  | [], cluster_view_exchanges => ([], [], cluster_view_exchanges)
  | (_, n) :: rest, cluster_view_exchanges =>
    if GOSSIP_DESTINATIONS_SAMPLE_SIZE ≤ cluster_view_exchanges then
      ([], [], cluster_view_exchanges)
    else if n.id = c.this_node_id then
      c.gossipKnownLoop rest cluster_view_exchanges
    else
      match c.collect_partial_cluster_view_of_newer_nodes n.id with
      | some partial_cluster_view_to_exchange =>
        let rec_result := c.gossipKnownLoop rest (cluster_view_exchanges + 1)
        ((n.advertised_addr, partial_cluster_view_to_exchange) :: rec_result.1,
          rec_result.2.1, rec_result.2.2)
      | none =>
        let rec_result := c.gossipKnownLoop rest cluster_view_exchanges
        (rec_result.1, n.advertised_addr :: rec_result.2.1, rec_result.2.2)

/-- The exchanges dispatched by one call of
Cluster::select_gossip_destinations. -/
structure GossipDispatches where
  cluster_view_exchanges_sent : List (Url × PartialClusterView)
  heartbeats_exchanges_sent : List (Url × List (NodeId × Nat))
deriving DecidableEq

/-- Total number of destination exchanges dispatched. -/
def GossipDispatches.total (g : GossipDispatches) : Nat :=
  g.cluster_view_exchanges_sent.length + g.heartbeats_exchanges_sent.length

/-- Cluster::select_gossip_destinations from
src/cluster/gossip_destinations.rs (lines 28-96): cluster-view exchanges
to unknown peers and lagging members, capped at the sample size, then
heartbeat exchanges to a random sample of the remaining candidates, capped
at the unused part of the sample size. -/
def Cluster.select_gossip_destinations (c : Cluster) : GossipDispatches :=
  let unknown_result := c.gossipUnknownLoop c.unknwon_peer_nodes 0
  let known_result := c.gossipKnownLoop c.cluster_view.known_members unknown_result.2
  let heartbeats_destinations := known_result.2.1
  let cluster_view_exchanges := known_result.2.2
  let heartbeats_exchanges := GOSSIP_DESTINATIONS_SAMPLE_SIZE - cluster_view_exchanges
  let heartbeats_sent :=
    if 0 < heartbeats_destinations.length ∧ 0 < heartbeats_exchanges then
      (heartbeats_destinations.take heartbeats_exchanges).map
        (fun dest => (dest, c.cluster_view.heartbeats))
    else
      []
  { cluster_view_exchanges_sent := unknown_result.1 ++ known_result.1
    heartbeats_exchanges_sent := heartbeats_sent }

/-! Convergence predicate.  Cluster::has_converged in src/cluster.rs
(lines 27-44) reads `state.observed_by`, a field that exists only in a
newer layer of views.rs that is absent from this source tree (the views.rs
present has no `observed_by`).  The member-state shape that has_converged
needs is therefore modelled from the spec, and has_converged itself is
translated from src/cluster.rs over that shape. -/

/-- Modelled from the spec: the member-view state of the `observed_by`
layer of views.rs, absent from this source tree — ⟨status, version,
heartbeat, observed_by: set of NodeId⟩, where `observed_by` records which
nodes have merged this member's current state. -/
structure ObservedMemberViewState where
  node_status : NodeStatus
  version : Nat
  heartbeat : Nat
  observed_by : Finset NodeId
deriving DecidableEq

/-- Modelled from the spec: a member view carrying an
ObservedMemberViewState, mirroring MemberView = ⟨id, advertised_addr,
state: optional state⟩. -/
structure ObservedMemberView where
  id : NodeId
  advertised_addr : Url
  state : Option ObservedMemberViewState
deriving DecidableEq

/-- The fields of Cluster (src/cluster.rs) that Cluster::has_converged
reads, with `known_members` holding the observed-by member views. -/
structure ObservedCluster where
  this_node_id : NodeId
  known_members : List (NodeId × ObservedMemberView)
  unknwon_peer_nodes : List Url
  failure_detector : FailureDetector

/-- Cluster::has_converged from src/cluster.rs (lines 27-44): no unknown
peers remain, and every known member is the running node or currently live
per the failure detector, and carries a state whose `observed_by` equals
the full key set of `known_members`.  `Instant::now()` becomes the `now`
argument. -/
def ObservedCluster.has_converged (c : ObservedCluster) (now : ℝ) : Prop :=
  let all_members_ids : Finset NodeId := (keysOf c.known_members).toFinset
  let all_members_are_live_and_converged :=
    ∀ p ∈ c.known_members,
      (p.2.id = c.this_node_id ∨ c.failure_detector.is_live p.2.id now) ∧
      (match p.2.state with
       | some state => state.observed_by = all_members_ids
       | none => False)
  c.unknwon_peer_nodes = [] ∧ all_members_are_live_and_converged

/-! Textual rendering of NodeId, from src/node.rs: `Display` writes
`"<unique_id>.<generation>"` with the u64 components in decimal, and
`FromStr` splits at the first `.` and parses both sides as u64. -/

/-- One decimal digit as a character. -/
def digitChar (d : Nat) : Char :=
  match d with
  | 0 => '0'
  | 1 => '1'
  | 2 => '2'
  | 3 => '3'
  | 4 => '4'
  | 5 => '5'
  | 6 => '6'
  | 7 => '7'
  | 8 => '8'
  | 9 => '9'
  | _ => '*'

/-- The numeric value of a decimal digit character (Rust
`char::to_digit(10)`): `none` off the digit range. -/
def digitVal (c : Char) : Option Nat :=
  if c = '0' then some 0
  else if c = '1' then some 1
  else if c = '2' then some 2
  else if c = '3' then some 3
  else if c = '4' then some 4
  else if c = '5' then some 5
  else if c = '6' then some 6
  else if c = '7' then some 7
  else if c = '8' then some 8
  else if c = '9' then some 9
  else none

/-- Canonical decimal rendering of a natural number (Rust u64 `Display`),
most significant digit first. -/
def natDecimal (n : Nat) : List Char :=
  if n < 10 then
    [digitChar n]
  else
    natDecimal (n / 10) ++ [digitChar (n % 10)]
decreasing_by exact Nat.div_lt_self (by omega) (by omega)

/-- Accumulating decimal parse over a character list (the fold inside Rust
`u64::from_str`): fails at the first non-digit. -/
def parseDigitsAux (acc : Nat) : List Char → Option Nat
  | [] => some acc
  | c :: cs =>
    match digitVal c with
    | some d => parseDigitsAux (acc * 10 + d) cs
    | none => none

/-- Strip one optional leading `+` sign (Rust integer `from_str`). -/
def stripPlus : List Char → List Char
  | [] => []
  | c :: rest => if c = '+' then rest else c :: rest

/-- Rust `str::parse::<u64>`: an optional leading `+`, then at least one
decimal digit, rejecting values that overflow u64.  (The source checks
overflow step by step; since the accumulated value grows monotonically,
checking the final value is equivalent.) -/
def parse_u64 (s : String) : Option Nat :=
  let cs := stripPlus s.data
  if cs = [] then
    none
  else
    (parseDigitsAux 0 cs).bind (fun v => if v < 2 ^ 64 then some v else none)

/-- Display for NodeId from src/node.rs (lines 55-59):
`"<unique_id>.<generation>"`. -/
def NodeId.display (n : NodeId) : String :=
  ⟨natDecimal n.unique_id ++ '.' :: natDecimal n.generation⟩

/-- Rust `str::split_once('.')` on the character list: the parts before and
after the first dot. -/
def splitOnceDotAux : List Char → Option (List Char × List Char)
  | [] => none
  | c :: cs =>
    if c = '.' then
      some ([], cs)
    else
      (splitOnceDotAux cs).map (fun p => (c :: p.1, p.2))

/-- FromStr for NodeId from src/node.rs (lines 61-73): split at the first
dot, parse both parts as u64 (`none` models `ParseNodeIdError`). -/
def NodeId.from_str (s : String) : Option NodeId :=
  (splitOnceDotAux s.data).bind
    (fun p =>
      (parse_u64 ⟨p.1⟩).bind
        (fun unique_id =>
          (parse_u64 ⟨p.2⟩).map
            (fun generation => { unique_id, generation })))

/-! The ClusterView invariants stated in the spec (§3), as predicates on
the model. -/

/-- Keys of `version_vector` and `heartbeats` are subsets of the keys of
`known_members`. -/
def ClusterView.keysSubset (cv : ClusterView) : Prop :=
  (∀ k ∈ keysOf cv.version_vector.versions, k ∈ keysOf cv.known_members) ∧
  (∀ k ∈ keysOf cv.heartbeats, k ∈ keysOf cv.known_members)

/-- Whenever `known_members[k].state` is present, `version_vector[k]` is
that state's version and `heartbeats[k]` is that state's heartbeat. -/
def ClusterView.projectionAgrees (cv : ClusterView) : Prop :=
  ∀ k ∈ keysOf cv.known_members, ∀ m ∈ lookupKey k cv.known_members, ∀ st ∈ m.state,
    lookupKey k cv.version_vector.versions = some st.version ∧
    lookupKey k cv.heartbeats = some st.heartbeat

/-- The invariant claimed for every ClusterView operation. -/
def ClusterView.inv (cv : ClusterView) : Prop :=
  cv.keysSubset ∧ cv.projectionAgrees

/-- Structural well-formedness of the `known_members` hash map: every
member record is stored under its own id.  Every view the code constructs
has this shape (the repository's own generators enforce it), and the
in-place merge behind `get_mut` relies on it. -/
def ClusterView.idsMatchKeys (cv : ClusterView) : Prop :=
  ∀ k ∈ keysOf cv.known_members, ∀ m ∈ lookupKey k cv.known_members, m.id = k

instance (cv : ClusterView) : Decidable cv.keysSubset := by
  unfold ClusterView.keysSubset
  infer_instance

instance (cv : ClusterView) : Decidable cv.projectionAgrees := by
  unfold ClusterView.projectionAgrees
  infer_instance

instance (cv : ClusterView) : Decidable cv.inv := by
  unfold ClusterView.inv
  infer_instance

instance (cv : ClusterView) : Decidable cv.idsMatchKeys := by
  unfold ClusterView.idsMatchKeys
  infer_instance

/-! Association-list facts used throughout. -/

theorem lookupKey_insertKey_self {β : Type _} (k : NodeId) (v : β) (l : List (NodeId × β)) :
    lookupKey k (insertKey k v l) = some v := by
  induction l with
  | nil => simp [insertKey, lookupKey]
  | cons p rest ih =>
    by_cases h : p.1 = k
    · simp [insertKey, lookupKey, h]
    · simp [insertKey, lookupKey, h, ih]

theorem lookupKey_insertKey_ne {β : Type _} {j k : NodeId} (v : β) (l : List (NodeId × β))
    (hjk : j ≠ k) : lookupKey j (insertKey k v l) = lookupKey j l := by
  induction l with
  | nil =>
    simp only [insertKey, lookupKey]
    rw [if_neg (fun h => hjk h.symm)]
  | cons p rest ih =>
    rcases p with ⟨a, b⟩
    simp only [insertKey]
    by_cases h : a = k
    · rw [if_pos h]
      simp only [lookupKey]
      rw [if_neg (fun h' => hjk h'.symm), if_neg (fun h' => hjk (h ▸ h').symm)]
    · rw [if_neg h]
      simp only [lookupKey]
      by_cases h2 : a = j
      · rw [if_pos h2, if_pos h2]
      · rw [if_neg h2, if_neg h2]
        exact ih

theorem mem_keysOf_insertKey {β : Type _} {x k : NodeId} (v : β) (l : List (NodeId × β)) :
    x ∈ keysOf (insertKey k v l) ↔ x = k ∨ x ∈ keysOf l := by
  induction l with
  | nil => simp [insertKey, keysOf]
  | cons p rest ih =>
    rcases p with ⟨a, b⟩
    simp only [insertKey]
    by_cases h : a = k
    · subst h
      rw [if_pos rfl]
      simp only [keysOf, List.map_cons, List.mem_cons]
      tauto
    · rw [if_neg h]
      simp only [keysOf, List.map_cons, List.mem_cons] at ih ⊢
      rw [ih]
      tauto

theorem mem_keysOf_iff_lookupKey {β : Type _} (k : NodeId) (l : List (NodeId × β)) :
    k ∈ keysOf l ↔ ∃ v, lookupKey k l = some v := by
  induction l with
  | nil => simp [keysOf, lookupKey]
  | cons p rest ih =>
    rcases p with ⟨a, b⟩
    by_cases h : a = k
    · subst h
      simp [keysOf, lookupKey]
    · simp only [keysOf, List.map_cons, List.mem_cons, lookupKey, if_neg h] at ih ⊢
      rw [ih]
      constructor
      · rintro (h' | h')
        · exact absurd h'.symm h
        · exact h'
      · exact Or.inr

theorem lookupKey_eq_none_of_not_mem {β : Type _} {k : NodeId} {l : List (NodeId × β)}
    (h : k ∉ keysOf l) : lookupKey k l = none := by
  cases hl : lookupKey k l with
  | none => rfl
  | some v => exact absurd ((mem_keysOf_iff_lookupKey k l).2 ⟨v, hl⟩) h

/-! Claim C1 and C2: algebraic laws of MemberView::merge.  Both laws fail
on the source: the final `_ => ()` arm of the merge match does nothing
when both states carry the same version and the same status, so the
heartbeat maximum is not taken there, although the merge is documented
(and property-tested) as a CvRDT merge. -/

/-- A member view of node ⟨1, 1⟩ at version 2, status Up, heartbeat 7. -/
def assocViewA : MemberView :=
  { id := ⟨1, 1⟩, advertised_addr := "test:8080", state := some ⟨.Up, 2, 7⟩ }

/-- Like `assocViewA` but with heartbeat 9. -/
def assocViewB : MemberView :=
  { id := ⟨1, 1⟩, advertised_addr := "test:8080", state := some ⟨.Up, 2, 9⟩ }

/-- A newer view of the same node: version 3, status Down, heartbeat 0. -/
def assocViewC : MemberView :=
  { id := ⟨1, 1⟩, advertised_addr := "test:8080", state := some ⟨.Down, 3, 0⟩ }

/-- C1: MemberView.merge is NOT associative.  With a.hb = 7, b.hb = 9 at
equal version and status and c at a higher version, merging b into a first
drops b's heartbeat (the equal-version equal-status arm is a no-op), so
`(a ⊕ b) ⊕ c` ends at heartbeat 7 while `a ⊕ (b ⊕ c)` ends at heartbeat 9. -/
theorem memberView_merge_not_associative :
    assocViewA.id.unique_id = assocViewB.id.unique_id ∧
    assocViewB.id.unique_id = assocViewC.id.unique_id ∧
    ((assocViewA.merge assocViewB).merge assocViewC).state = some ⟨.Down, 3, 7⟩ ∧
    (assocViewA.merge (assocViewB.merge assocViewC)).state = some ⟨.Down, 3, 9⟩ ∧
    (assocViewA.merge assocViewB).merge assocViewC ≠
      assocViewA.merge (assocViewB.merge assocViewC) := by
  decide

/-- A member view of node ⟨1, 1⟩ at version 1, status Joining, heartbeat 5. -/
def commViewA : MemberView :=
  { id := ⟨1, 1⟩, advertised_addr := "test:8080", state := some ⟨.Joining, 1, 5⟩ }

/-- Like `commViewA` but with heartbeat 7. -/
def commViewB : MemberView :=
  { id := ⟨1, 1⟩, advertised_addr := "test:8080", state := some ⟨.Joining, 1, 7⟩ }

/-- C2: MemberView.merge is NOT commutative.  With equal id, version and
status but heartbeats 5 and 7, both merge directions are no-ops (the
equal-version equal-status case does not take the heartbeat maximum), so
each direction keeps its own heartbeat. -/
theorem memberView_merge_not_commutative :
    commViewA.id.unique_id = commViewB.id.unique_id ∧
    (commViewA.merge commViewB).state = some ⟨.Joining, 1, 5⟩ ∧
    (commViewB.merge commViewA).state = some ⟨.Joining, 1, 7⟩ ∧
    commViewA.merge commViewB ≠ commViewB.merge commViewA := by
  decide

/-! Claim C7: FailureDetector::record_heartbeat with a non-increasing
heartbeat is a silent no-op. -/

/-- C7: when the detector already tracks the peer and the incoming
heartbeat is at most the stored one, record_heartbeat leaves the detector
(every member, every statistic) unchanged and signals nothing. -/
theorem failureDetector_record_heartbeat_noop
    (fd : FailureDetector) (now : ℝ) (node_id : NodeId) (last_heartbeat : Nat)
    (member : FailureDetectorMember)
    (hmem : lookupKey node_id fd.members = some member)
    (hle : last_heartbeat ≤ member.last_heartbeat) :
    fd.record_heartbeat now node_id last_heartbeat = fd := by
  unfold FailureDetector.record_heartbeat
  rw [hmem]
  simp only []
  rw [if_neg (by omega)]

/-- A detector tracking peer ⟨1, 1⟩ with stored heartbeat 5. -/
def noopDetector : FailureDetector :=
  { this_node_id := ⟨0, 0⟩
    members := [(⟨1, 1⟩, FailureDetectorMember.new 0 5)]
    phi_treshold := 8 }

/-- Witness for C7 at a concrete detector: recording heartbeat 3 over a
stored heartbeat of 5 changes nothing. -/
theorem failureDetector_record_heartbeat_noop_witness :
    lookupKey ⟨1, 1⟩ noopDetector.members = some (FailureDetectorMember.new 0 5) ∧
    3 ≤ (FailureDetectorMember.new 0 5).last_heartbeat ∧
    noopDetector.record_heartbeat 2 ⟨1, 1⟩ 3 = noopDetector :=
  ⟨rfl, by decide,
    failureDetector_record_heartbeat_noop noopDetector 2 ⟨1, 1⟩ 3
      (FailureDetectorMember.new 0 5) rfl (by decide)⟩

/-! Claim C9: the tick-side heartbeat increment. -/

/-- C9: when the own entries are present (as the ClusterView invariants
guarantee), increment_own_heartbeat succeeds, bumps the own heartbeats
entry and the own member state's heartbeat by exactly one, and leaves
everything else — other members, other heartbeat entries, the version
vector, peer sets, failure detector and monitor — unchanged. -/
theorem increment_own_heartbeat_spec
    (c : Cluster) (h : Nat) (m : MemberView) (st : MemberViewState)
    (hhb : lookupKey c.this_node_id c.cluster_view.heartbeats = some h)
    (hm : lookupKey c.this_node_id c.cluster_view.known_members = some m)
    (hst : m.state = some st) :
    c.increment_own_heartbeat =
      some
        { c with
          cluster_view :=
            { c.cluster_view with
              heartbeats := insertKey c.this_node_id (h + 1) c.cluster_view.heartbeats
              known_members :=
                insertKey c.this_node_id
                  { m with state := some { st with heartbeat := st.heartbeat + 1 } }
                  c.cluster_view.known_members } } ∧
    (∀ c', c.increment_own_heartbeat = some c' →
      lookupKey c.this_node_id c'.cluster_view.heartbeats = some (h + 1) ∧
      lookupKey c.this_node_id c'.cluster_view.known_members =
        some { m with state := some { st with heartbeat := st.heartbeat + 1 } } ∧
      (∀ k, k ≠ c.this_node_id →
        lookupKey k c'.cluster_view.heartbeats = lookupKey k c.cluster_view.heartbeats) ∧
      (∀ k, k ≠ c.this_node_id →
        lookupKey k c'.cluster_view.known_members = lookupKey k c.cluster_view.known_members) ∧
      c'.cluster_view.version_vector = c.cluster_view.version_vector ∧
      c'.this_node_id = c.this_node_id ∧
      c'.this_advertised_url = c.this_advertised_url ∧
      c'.peer_nodes = c.peer_nodes ∧
      c'.unknwon_peer_nodes = c.unknwon_peer_nodes ∧
      c'.failure_detector = c.failure_detector ∧
      c'.convergence_monitor = c.convergence_monitor) := by
  have hinc :
      c.increment_own_heartbeat =
        some
          { c with
            cluster_view :=
              { c.cluster_view with
                heartbeats := insertKey c.this_node_id (h + 1) c.cluster_view.heartbeats
                known_members :=
                  insertKey c.this_node_id
                    { m with state := some { st with heartbeat := st.heartbeat + 1 } }
                    c.cluster_view.known_members } } := by
    simp only [Cluster.increment_own_heartbeat, hhb, hm, hst]
  refine ⟨hinc, fun c' hc' => ?_⟩
  rw [hinc] at hc'
  cases hc'
  refine ⟨lookupKey_insertKey_self _ _ _, lookupKey_insertKey_self _ _ _,
    fun k hk => lookupKey_insertKey_ne _ _ hk,
    fun k hk => lookupKey_insertKey_ne _ _ hk,
    rfl, rfl, rfl, rfl, rfl, rfl, rfl⟩

/-- A concrete two-member cluster used to witness C9. -/
def tickCluster : Cluster :=
  { this_node_id := ⟨5, 7⟩
    this_advertised_url := "u0"
    cluster_view :=
      { known_members :=
          [(⟨5, 7⟩, { id := ⟨5, 7⟩, advertised_addr := "u0", state := some ⟨.Joining, 1, 4⟩ }),
           (⟨6, 7⟩, { id := ⟨6, 7⟩, advertised_addr := "u1", state := some ⟨.Up, 2, 11⟩ })]
        version_vector := ⟨[(⟨5, 7⟩, 1), (⟨6, 7⟩, 2)]⟩
        heartbeats := [(⟨5, 7⟩, 4), (⟨6, 7⟩, 11)] }
    peer_nodes := ["u1"]
    unknwon_peer_nodes := []
    failure_detector := FailureDetector.new ⟨5, 7⟩
    convergence_monitor := { this_node_id := ⟨5, 7⟩, observed_states_per_node := [] } }

/-- Witness for C9 at `tickCluster`: the own heartbeat goes from 4 to 5 in
both maps. -/
theorem increment_own_heartbeat_witness :
    tickCluster.increment_own_heartbeat =
      some
        { tickCluster with
          cluster_view :=
            { tickCluster.cluster_view with
              heartbeats := insertKey ⟨5, 7⟩ 5 tickCluster.cluster_view.heartbeats
              known_members :=
                insertKey ⟨5, 7⟩
                  { id := ⟨5, 7⟩, advertised_addr := "u0", state := some ⟨.Joining, 1, 5⟩ }
                  tickCluster.cluster_view.known_members } } :=
  (increment_own_heartbeat_spec tickCluster 4
    { id := ⟨5, 7⟩, advertised_addr := "u0", state := some ⟨.Joining, 1, 4⟩ }
    ⟨.Joining, 1, 4⟩ rfl rfl rfl).1

/-! Claim C4: the liveness predicate.  The claim's reading — a peer with
no phi value yet is live — holds for live_members (`unwrap_or(0.0)`) but
not for is_live, whose `unwrap_or(false)` makes such a peer NOT live. -/

/-- C4 (amended): is_live(peer, now) holds exactly when the detector has
an entry for the peer, that entry has a phi value at `now`, and the value
is strictly below the threshold; in particular a peer without a phi value
is treated as not live by is_live. -/
theorem is_live_iff_phi_below_threshold (fd : FailureDetector) (node_id : NodeId) (now : ℝ) :
    fd.is_live node_id now ↔
      ∃ member, lookupKey node_id fd.members = some member ∧
        ∃ phi, member.phi now = some phi ∧ phi < fd.phi_treshold := by
  unfold FailureDetector.is_live
  cases hm : lookupKey node_id fd.members with
  | none => simp
  | some member =>
    cases hphi : member.phi now with
    | none => simp [hphi]
    | some phi => simp [hphi]

/-- A detector that has just created an entry for peer ⟨1, 1⟩: the
interval window is empty, so the peer has no phi value yet. -/
noncomputable def unseenPhiDetector : FailureDetector :=
  (FailureDetector.new ⟨0, 0⟩).record_heartbeat 0 ⟨1, 1⟩ 5

/-- C4 counterexample: peer ⟨1, 1⟩ has an entry but no phi value (empty
window), and is_live returns false for it, refuting "a peer with no phi
value is treated as live by is_live". -/
theorem is_live_counterexample :
    lookupKey ⟨1, 1⟩ unseenPhiDetector.members = some (FailureDetectorMember.new 0 5) ∧
    (FailureDetectorMember.new 0 5).phi 0 = none ∧
    ¬ unseenPhiDetector.is_live ⟨1, 1⟩ 0 :=
  ⟨rfl, rfl, fun hl => hl⟩

/-! Claim C3: the convergence predicate. -/

/-- C3: has_converged holds exactly when no unknown peers remain and every
known member (a) is the running node or live per the failure detector at
the current instant, and (b) carries a state whose observed_by set equals
the key set of known_members. -/
theorem has_converged_iff (c : ObservedCluster) (now : ℝ) :
    c.has_converged now ↔
      (c.unknwon_peer_nodes = [] ∧
       ∀ p ∈ c.known_members,
         (p.2.id = c.this_node_id ∨ c.failure_detector.is_live p.2.id now) ∧
         ∃ state, p.2.state = some state ∧
           state.observed_by = (keysOf c.known_members).toFinset) := by
  simp only [ObservedCluster.has_converged]
  refine and_congr Iff.rfl (forall₂_congr fun p hp => and_congr Iff.rfl ?_)
  cases hst : p.2.state with
  | none => simp
  | some state => simp

/-! Claim C8: monotonicity of phi.  The formula
`phi = 1 - log10(0.5 * (mean - x) / (stddev * sqrt 2))` is strictly
increasing in `x` only while `x` stays below the mean: the argument of the
logarithm is positive there.  Once `x` reaches the mean the argument hits
zero and then turns negative (the f64 computation produces NaN), so the
claim's unrestricted monotonicity fails. -/

/-- C8 (amended): with the window statistics present, a positive standard
deviation, and both instants at or after the last heartbeat but with
elapsed time below the mean interval, phi strictly increases with time. -/
theorem phi_strictMono_before_mean
    (m : FailureDetectorMember) (mean std_dev t1 t2 phi1 phi2 : ℝ)
    (hmean : m.heartbeats_intervals_mean = some mean)
    (hstd : m.hearbeats_interval_std_dev = some std_dev)
    (hstdpos : 0 < std_dev)
    (h1 : m.last_heartbeat_received_at ≤ t1)
    (h12 : t1 < t2)
    (h2 : t2 - m.last_heartbeat_received_at < mean)
    (hphi1 : m.phi t1 = some phi1)
    (hphi2 : m.phi t2 = some phi2) :
    phi1 < phi2 := by
  unfold FailureDetectorMember.phi at hphi1 hphi2
  rw [hmean, hstd] at hphi1 hphi2
  simp only [Option.some.injEq] at hphi1 hphi2
  have hc : 0 < std_dev * Real.sqrt 2 := by positivity
  have harg2pos :
      0 < 0.5 * (mean - (t2 - m.last_heartbeat_received_at)) / (std_dev * Real.sqrt 2) := by
    apply div_pos _ hc
    nlinarith
  have harglt :
      0.5 * (mean - (t2 - m.last_heartbeat_received_at)) / (std_dev * Real.sqrt 2) <
        0.5 * (mean - (t1 - m.last_heartbeat_received_at)) / (std_dev * Real.sqrt 2) := by
    rw [div_lt_div_iff_of_pos_right hc]
    nlinarith
  have hlog := Real.logb_lt_logb (b := 10) (by norm_num) harg2pos harglt
  rw [← hphi1, ← hphi2]
  linarith

/-- A warm detector member: mean interval 2 s, standard deviation 1 s,
last heartbeat received at instant 0. -/
noncomputable def warmMember : FailureDetectorMember :=
  { last_heartbeat := 3
    last_heartbeat_received_at := 0
    heartbeats_intervals := [2, 2]
    heartbeats_intervals_mean := some 2
    hearbeats_interval_std_dev := some 1
    heartbeats_min_interval := some 2
    heartbeats_max_interval := some 2 }

/-- The phi value of `warmMember` at instant 0. -/
noncomputable def warmPhiAt0 : ℝ :=
  1 - Real.logb 10 (0.5 * (2 - ((0 : ℝ) - 0)) / (1 * Real.sqrt 2))

/-- The phi value of `warmMember` at instant 1. -/
noncomputable def warmPhiAt1 : ℝ :=
  1 - Real.logb 10 (0.5 * (2 - ((1 : ℝ) - 0)) / (1 * Real.sqrt 2))

/-- Witness for the amended C8: on `warmMember`, phi at instant 0 is
strictly below phi at instant 1. -/
theorem phi_strictMono_before_mean_witness :
    warmMember.phi 0 = some warmPhiAt0 ∧
    warmMember.phi 1 = some warmPhiAt1 ∧
    warmPhiAt0 < warmPhiAt1 :=
  ⟨rfl, rfl,
    phi_strictMono_before_mean warmMember 2 1 0 1 warmPhiAt0 warmPhiAt1 rfl rfl
      (by norm_num) (by norm_num [warmMember]) (by norm_num) (by norm_num [warmMember])
      rfl rfl⟩

/-- The phi value of `warmMember` at instant 3 (past the mean). -/
noncomputable def warmPhiAt3 : ℝ :=
  1 - Real.logb 10 (0.5 * (2 - ((3 : ℝ) - 0)) / (1 * Real.sqrt 2))

/-- The phi value of `warmMember` at instant 4 (past the mean). -/
noncomputable def warmPhiAt4 : ℝ :=
  1 - Real.logb 10 (0.5 * (2 - ((4 : ℝ) - 0)) / (1 * Real.sqrt 2))

/-- C8 counterexample: `warmMember` has its statistics present and the
instants 3 < 4 both lie at or after the last heartbeat, yet phi at 3 is
not less than phi at 4 — monotonicity fails once the elapsed time passes
the mean (in the real-number model the formula decreases there; the f64
source produces NaN, which also refutes a strict increase). -/
theorem phi_not_strictMono_counterexample :
    warmMember.heartbeats_intervals_mean = some 2 ∧
    warmMember.hearbeats_interval_std_dev = some 1 ∧
    warmMember.last_heartbeat_received_at ≤ 3 ∧
    (3 : ℝ) < 4 ∧
    warmMember.phi 3 = some warmPhiAt3 ∧
    warmMember.phi 4 = some warmPhiAt4 ∧
    ¬ warmPhiAt3 < warmPhiAt4 := by
  refine ⟨rfl, rfl, by norm_num [warmMember], by norm_num, rfl, rfl, not_lt.2 ?_⟩
  unfold warmPhiAt3 warmPhiAt4
  have e3 : 0.5 * (2 - ((3 : ℝ) - 0)) / (1 * Real.sqrt 2) = -(0.5 / Real.sqrt 2) := by
    ring
  have e4 : 0.5 * (2 - ((4 : ℝ) - 0)) / (1 * Real.sqrt 2) = -(1 / Real.sqrt 2) := by
    ring
  rw [e3, e4, Real.logb_neg_eq_logb, Real.logb_neg_eq_logb]
  have hpos : (0 : ℝ) < 0.5 / Real.sqrt 2 := by positivity
  have hle : (0.5 : ℝ) / Real.sqrt 2 ≤ 1 / Real.sqrt 2 := by
    gcongr
    norm_num
  have := Real.logb_le_logb_of_le (b := 10) (by norm_num) hpos hle
  linarith

/-! Claim C5: preservation of the ClusterView invariants. -/

/-- Inserting a member under its own key and re-projecting its version and
heartbeat — the common shape of both branches of `mergeOneMember`. -/
def projInsert (cv : ClusterView) (key : NodeId) (newm : MemberView) : ClusterView :=
  { known_members := insertKey key newm cv.known_members
    version_vector := ⟨insertKey key ((newm.state.map (·.version)).getD 0) cv.version_vector.versions⟩
    heartbeats := insertKey key ((newm.state.map (·.heartbeat)).getD 0) cv.heartbeats }

theorem merge_id_of_eq {s i : MemberView} (h : s.id = i.id) : (s.merge i).id = i.id := by
  unfold MemberView.merge
  rw [h, if_neg (lt_irrefl _), if_pos rfl]
  split
  · rfl
  · split_ifs <;> first | rfl | exact h
  · exact h

theorem projInsert_preserves (cv : ClusterView) (key : NodeId) (newm : MemberView)
    (hid : newm.id = key) (hids : cv.idsMatchKeys) (hinv : cv.inv) :
    (projInsert cv key newm).idsMatchKeys ∧ (projInsert cv key newm).inv := by
  obtain ⟨⟨hsub1, hsub2⟩, hproj⟩ := hinv
  simp only [projInsert, ClusterView.idsMatchKeys, ClusterView.inv, ClusterView.keysSubset,
    ClusterView.projectionAgrees]
  refine ⟨?_, ⟨?_, ?_⟩, ?_⟩
  · intro k hk m hm
    by_cases hkm : k = key
    · subst hkm
      rw [lookupKey_insertKey_self] at hm
      obtain rfl : newm = m := Option.some.inj (Option.mem_def.1 hm)
      exact hid
    · rw [lookupKey_insertKey_ne _ _ hkm] at hm
      refine hids k ?_ m hm
      rcases (mem_keysOf_insertKey _ _).1 hk with h' | h'
      · exact absurd h' hkm
      · exact h'
  · intro k hk
    rcases (mem_keysOf_insertKey _ _).1 hk with h' | h'
    · exact (mem_keysOf_insertKey _ _).2 (Or.inl h')
    · exact (mem_keysOf_insertKey _ _).2 (Or.inr (hsub1 k h'))
  · intro k hk
    rcases (mem_keysOf_insertKey _ _).1 hk with h' | h'
    · exact (mem_keysOf_insertKey _ _).2 (Or.inl h')
    · exact (mem_keysOf_insertKey _ _).2 (Or.inr (hsub2 k h'))
  · intro k hk m hm st hst
    by_cases hkm : k = key
    · subst hkm
      rw [lookupKey_insertKey_self] at hm
      have hmn : m = newm := (Option.some.inj (Option.mem_def.1 hm)).symm
      subst hmn
      have hstate : m.state = some st := Option.mem_def.1 hst
      constructor
      · show lookupKey k (insertKey k _ _) = _
        rw [lookupKey_insertKey_self, hstate]
        rfl
      · show lookupKey k (insertKey k _ _) = _
        rw [lookupKey_insertKey_self, hstate]
        rfl
    · have hk' : k ∈ keysOf cv.known_members := by
        rcases (mem_keysOf_insertKey _ _).1 hk with h' | h'
        · exact absurd h' hkm
        · exact h'
      rw [lookupKey_insertKey_ne _ _ hkm] at hm
      have hold := hproj k hk' m hm st hst
      constructor
      · show lookupKey k (insertKey key _ _) = _
        rw [lookupKey_insertKey_ne _ _ hkm]
        exact hold.1
      · show lookupKey k (insertKey key _ _) = _
        rw [lookupKey_insertKey_ne _ _ hkm]
        exact hold.2

theorem mergeOneMember_preserves (cv : ClusterView) (mv : MemberView)
    (hids : cv.idsMatchKeys) (hinv : cv.inv) :
    (cv.mergeOneMember mv).idsMatchKeys ∧ (cv.mergeOneMember mv).inv := by
  cases hl : lookupKey mv.id cv.known_members with
  | some existing =>
    have hexid : existing.id = mv.id :=
      hids mv.id ((mem_keysOf_iff_lookupKey _ _).2 ⟨existing, hl⟩) existing (Option.mem_def.2 hl)
    have hmid : (existing.merge mv).id = mv.id := merge_id_of_eq hexid
    have heq : cv.mergeOneMember mv = projInsert cv mv.id (existing.merge mv) := by
      simp only [ClusterView.mergeOneMember, hl, hmid, projInsert]
    rw [heq]
    exact projInsert_preserves cv mv.id (existing.merge mv) hmid hids hinv
  | none =>
    have heq : cv.mergeOneMember mv = projInsert cv mv.id mv := by
      simp only [ClusterView.mergeOneMember, hl, projInsert]
    rw [heq]
    exact projInsert_preserves cv mv.id mv rfl hids hinv

theorem merge_partial_preserves (cv : ClusterView) (pcv : PartialClusterView)
    (hids : cv.idsMatchKeys) (hinv : cv.inv) :
    (cv.merge_partial_cluster_view pcv).idsMatchKeys ∧
    (cv.merge_partial_cluster_view pcv).inv := by
  unfold ClusterView.merge_partial_cluster_view
  have hgen :
      ∀ (l : List (NodeId × MemberView)) (cv : ClusterView), cv.idsMatchKeys → cv.inv →
        (List.foldl (fun acc p => acc.mergeOneMember p.2) cv l).idsMatchKeys ∧
        (List.foldl (fun acc p => acc.mergeOneMember p.2) cv l).inv := by
    intro l
    induction l with
    | nil => exact fun cv hids hinv => ⟨hids, hinv⟩
    | cons p rest ih =>
      intro cv hids hinv
      simp only [List.foldl_cons]
      have hstep := mergeOneMember_preserves cv p.2 hids hinv
      exact ih (cv.mergeOneMember p.2) hstep.1 hstep.2
  exact hgen pcv.members cv hids hinv

theorem initial_establishes_inv (nid : NodeId) (url : Url) :
    (ClusterView.initial nid url).idsMatchKeys ∧ (ClusterView.initial nid url).inv := by
  refine ⟨?_, ⟨?_, ?_⟩, ?_⟩ <;>
    · intro k hk
      simp only [ClusterView.initial, MemberView.this_node_initial_view, insertKey, keysOf,
        List.map_cons, List.map_nil, List.mem_cons, List.not_mem_nil, or_false] at hk ⊢
      subst hk
      simp [lookupKey]

theorem record_heartbeat_preserves_inv (cv : ClusterView) (node_id : NodeId) (heartbeat : Nat)
    (hinv : cv.inv) (hmem : node_id ∈ keysOf cv.known_members) :
    (cv.record_heartbeat node_id heartbeat).inv := by
  obtain ⟨⟨hsub1, hsub2⟩, hproj⟩ := hinv
  obtain ⟨m, hm⟩ := (mem_keysOf_iff_lookupKey _ _).1 hmem
  cases hst : m.state with
  | none =>
    have heq :
        cv.record_heartbeat node_id heartbeat =
          { cv with
            heartbeats :=
              insertKey node_id (max heartbeat ((lookupKey node_id cv.heartbeats).getD 0))
                cv.heartbeats } := by
      simp only [ClusterView.record_heartbeat, hm, hst]
    rw [heq]
    refine ⟨⟨hsub1, ?_⟩, ?_⟩
    · intro k hk
      rcases (mem_keysOf_insertKey _ _).1 hk with h' | h'
      · exact h' ▸ hmem
      · exact hsub2 k h'
    · intro k hk m2 hm2 st2 hst2
      by_cases hkm : k = node_id
      · subst hkm
        have hm2m : m2 = m := by
          have := Option.mem_def.1 hm2
          rw [hm] at this
          exact (Option.some.inj this).symm
        subst hm2m
        rw [hst] at hst2
        exact absurd (Option.mem_def.1 hst2) (by simp)
      · have hold := hproj k hk m2 hm2 st2 hst2
        exact ⟨hold.1, by rw [lookupKey_insertKey_ne _ _ hkm]; exact hold.2⟩
  | some st =>
    have hhb : lookupKey node_id cv.heartbeats = some st.heartbeat :=
      (hproj node_id hmem m (Option.mem_def.2 hm) st (Option.mem_def.2 hst)).2
    have hvv : lookupKey node_id cv.version_vector.versions = some st.version :=
      (hproj node_id hmem m (Option.mem_def.2 hm) st (Option.mem_def.2 hst)).1
    have heq :
        cv.record_heartbeat node_id heartbeat =
          { cv with
            heartbeats := insertKey node_id (max heartbeat st.heartbeat) cv.heartbeats
            known_members :=
              insertKey node_id
                { m with state := some { st with heartbeat := max heartbeat st.heartbeat } }
                cv.known_members } := by
      simp only [ClusterView.record_heartbeat, hm, hst, hhb, Option.getD_some]
    rw [heq]
    refine ⟨⟨?_, ?_⟩, ?_⟩
    · intro k hk
      exact (mem_keysOf_insertKey _ _).2 (Or.inr (hsub1 k hk))
    · intro k hk
      rcases (mem_keysOf_insertKey _ _).1 hk with h' | h'
      · exact (mem_keysOf_insertKey _ _).2 (Or.inl h')
      · exact (mem_keysOf_insertKey _ _).2 (Or.inr (hsub2 k h'))
    · intro k hk m2 hm2 st2 hst2
      by_cases hkm : k = node_id
      · subst hkm
        rw [lookupKey_insertKey_self] at hm2
        have hm2' : m2 = { m with state := some { st with heartbeat := max heartbeat st.heartbeat } } :=
          (Option.some.inj (Option.mem_def.1 hm2)).symm
        subst hm2'
        have hst2' : st2 = { st with heartbeat := max heartbeat st.heartbeat } := by
          have := Option.mem_def.1 hst2
          exact (Option.some.inj this).symm
        subst hst2'
        exact ⟨hvv, by rw [lookupKey_insertKey_self]⟩
      · have hk' : k ∈ keysOf cv.known_members := by
          rcases (mem_keysOf_insertKey _ _).1 hk with h' | h'
          · exact absurd h' hkm
          · exact h'
        rw [lookupKey_insertKey_ne _ _ hkm] at hm2
        have hold := hproj k hk' m2 hm2 st2 hst2
        exact ⟨hold.1, by rw [lookupKey_insertKey_ne _ _ hkm]; exact hold.2⟩

/-- C5 (amended): the initial view establishes the invariant (together
with the structural property that members are keyed by their own id);
merge_partial_cluster_view preserves both; record_heartbeat preserves the
invariant provided the node is already a known member.  (Called with an
unknown node it inserts an orphan heartbeats key — see the
counterexample.) -/
theorem clusterView_invariant_preservation :
    (∀ nid url, (ClusterView.initial nid url).idsMatchKeys ∧ (ClusterView.initial nid url).inv) ∧
    (∀ (cv : ClusterView) (pcv : PartialClusterView), cv.idsMatchKeys → cv.inv →
      (cv.merge_partial_cluster_view pcv).idsMatchKeys ∧
      (cv.merge_partial_cluster_view pcv).inv) ∧
    (∀ (cv : ClusterView) (node_id : NodeId) (heartbeat : Nat),
      cv.inv → node_id ∈ keysOf cv.known_members →
      (cv.record_heartbeat node_id heartbeat).inv) :=
  ⟨initial_establishes_inv, merge_partial_preserves, record_heartbeat_preserves_inv⟩

/-- The freshly initialised view of node ⟨1, 1⟩. -/
def freshView : ClusterView := ClusterView.initial ⟨1, 1⟩ "u0"

/-- A one-member incoming gossip payload about node ⟨2, 2⟩. -/
def incomingPayload : PartialClusterView :=
  { this_node_id := ⟨2, 2⟩
    members := [(⟨2, 2⟩, { id := ⟨2, 2⟩, advertised_addr := "u1", state := some ⟨.Up, 3, 9⟩ })] }

/-- Witness for C5 at concrete inputs: the initial view satisfies the
invariant, merging a payload preserves it, and record_heartbeat for a
known member preserves it. -/
theorem clusterView_invariant_preservation_witness :
    (freshView.idsMatchKeys ∧ freshView.inv) ∧
    ((freshView.merge_partial_cluster_view incomingPayload).idsMatchKeys ∧
      (freshView.merge_partial_cluster_view incomingPayload).inv) ∧
    (freshView.record_heartbeat ⟨1, 1⟩ 6).inv :=
  ⟨clusterView_invariant_preservation.1 ⟨1, 1⟩ "u0",
    clusterView_invariant_preservation.2.1 freshView incomingPayload (by decide) (by decide),
    clusterView_invariant_preservation.2.2 freshView ⟨1, 1⟩ 6 (by decide) (by decide)⟩

/-- C5 counterexample: record_heartbeat called with a node id outside
known_members (which the heartbeat-reconciliation path in lib.rs does for
any gossiped peer) inserts a heartbeats key that is not a known member,
violating the key-subset invariant. -/
theorem record_heartbeat_breaks_key_subset :
    freshView.inv ∧
    (⟨2, 2⟩ : NodeId) ∈ keysOf (freshView.record_heartbeat ⟨2, 2⟩ 5).heartbeats ∧
    (⟨2, 2⟩ : NodeId) ∉ keysOf (freshView.record_heartbeat ⟨2, 2⟩ 5).known_members := by
  decide

/-! Claim C6: how many exchanges one destination-selection call
dispatches.  The sample-size constant in the source is five, not three. -/

theorem gossipUnknownLoop_spec (c : Cluster) (l : List Url) :
    ∀ count, count ≤ GOSSIP_DESTINATIONS_SAMPLE_SIZE →
      (c.gossipUnknownLoop l count).2 = count + (c.gossipUnknownLoop l count).1.length ∧
      (c.gossipUnknownLoop l count).2 ≤ GOSSIP_DESTINATIONS_SAMPLE_SIZE := by
  induction l with
  | nil => intro count hcount; simpa [Cluster.gossipUnknownLoop] using hcount
  | cons url rest ih =>
    intro count hcount
    by_cases hstop : GOSSIP_DESTINATIONS_SAMPLE_SIZE ≤ count
    · simp only [Cluster.gossipUnknownLoop, if_pos hstop]
      exact ⟨rfl, hcount⟩
    · have hrec := ih (count + 1) (by omega)
      simp only [Cluster.gossipUnknownLoop, if_neg hstop, List.length_cons]
      exact ⟨by omega, hrec.2⟩

theorem gossipKnownLoop_spec (c : Cluster) (l : List (NodeId × MemberView)) :
    ∀ count, count ≤ GOSSIP_DESTINATIONS_SAMPLE_SIZE →
      (c.gossipKnownLoop l count).2.2 = count + (c.gossipKnownLoop l count).1.length ∧
      (c.gossipKnownLoop l count).2.2 ≤ GOSSIP_DESTINATIONS_SAMPLE_SIZE := by
  induction l with
  | nil => intro count hcount; simpa [Cluster.gossipKnownLoop] using hcount
  | cons p rest ih =>
    intro count hcount
    by_cases hstop : GOSSIP_DESTINATIONS_SAMPLE_SIZE ≤ count
    · simp only [Cluster.gossipKnownLoop, if_pos hstop]
      exact ⟨rfl, hcount⟩
    · by_cases hself : p.2.id = c.this_node_id
      · simp only [Cluster.gossipKnownLoop, if_neg hstop, if_pos hself]
        exact ih count hcount
      · cases hcol : c.collect_partial_cluster_view_of_newer_nodes p.2.id with
        | some pcv =>
          have hrec := ih (count + 1) (by omega)
          simp only [Cluster.gossipKnownLoop, if_neg hstop, if_neg hself, hcol,
            List.length_cons]
          exact ⟨by omega, hrec.2⟩
        | none =>
          have hrec := ih count hcount
          simp only [Cluster.gossipKnownLoop, if_neg hstop, if_neg hself, hcol]
          exact hrec

/-- C6 (amended): one call of select_gossip_destinations dispatches at
most GOSSIP_DESTINATIONS_SAMPLE_SIZE = 5 exchanges in total (cluster-view
exchanges plus heartbeat exchanges). -/
theorem select_gossip_destinations_at_most_five (c : Cluster) :
    (c.select_gossip_destinations).total ≤ GOSSIP_DESTINATIONS_SAMPLE_SIZE := by
  unfold Cluster.select_gossip_destinations GossipDispatches.total
  have hu := gossipUnknownLoop_spec c c.unknwon_peer_nodes 0 (by norm_num [GOSSIP_DESTINATIONS_SAMPLE_SIZE])
  have hk :=
    gossipKnownLoop_spec c c.cluster_view.known_members
      (c.gossipUnknownLoop c.unknwon_peer_nodes 0).2 hu.2
  simp only [List.length_append]
  set u := c.gossipUnknownLoop c.unknwon_peer_nodes 0 with hudef
  set kres := c.gossipKnownLoop c.cluster_view.known_members u.2 with hkdef
  split_ifs with hcond
  · have htake :
        ((kres.2.1.take (GOSSIP_DESTINATIONS_SAMPLE_SIZE - kres.2.2)).map
          (fun dest => (dest, c.cluster_view.heartbeats))).length ≤
          GOSSIP_DESTINATIONS_SAMPLE_SIZE - kres.2.2 := by
      rw [List.length_map, List.length_take]
      omega
    omega
  · simp only [List.length_nil]
    omega

/-- A cluster with four unknown peer URLs and nothing else. -/
def fourSeedCluster : Cluster :=
  { this_node_id := ⟨0, 0⟩
    this_advertised_url := "u0"
    cluster_view := { known_members := [], version_vector := ⟨[]⟩, heartbeats := [] }
    peer_nodes := ["u1", "u2", "u3", "u4"]
    unknwon_peer_nodes := ["u1", "u2", "u3", "u4"]
    failure_detector := FailureDetector.new ⟨0, 0⟩
    convergence_monitor := { this_node_id := ⟨0, 0⟩, observed_states_per_node := [] } }

/-- C6 counterexample: with four unknown peers, one selection call
dispatches four exchanges, exceeding the claimed bound of three. -/
theorem select_gossip_destinations_exceeds_three :
    (fourSeedCluster.select_gossip_destinations).total = 4 ∧
    ¬ (fourSeedCluster.select_gossip_destinations).total ≤ 3 := by
  decide

/-! Claim C10: NodeId textual round-trip. -/

theorem digitChar_ne_dot (d : Nat) : digitChar d ≠ '.' := by
  unfold digitChar
  split <;> decide

theorem digitChar_ne_plus (d : Nat) : digitChar d ≠ '+' := by
  unfold digitChar
  split <;> decide

theorem natDecimal_ne_nil (n : Nat) : natDecimal n ≠ [] := by
  rw [natDecimal]
  split_ifs <;> simp

theorem natDecimal_all_not_dot (n : Nat) : ∀ c ∈ natDecimal n, c ≠ '.' := by
  induction n using Nat.strong_induction_on with
  | _ n ih =>
    rw [natDecimal]
    split_ifs with h
    · intro c hc
      simp only [List.mem_singleton] at hc
      subst hc
      exact digitChar_ne_dot n
    · intro c hc
      rcases List.mem_append.1 hc with h' | h'
      · exact ih (n / 10) (Nat.div_lt_self (by omega) (by omega)) c h'
      · simp only [List.mem_singleton] at h'
        subst h'
        exact digitChar_ne_dot _

theorem natDecimal_all_not_plus (n : Nat) : ∀ c ∈ natDecimal n, c ≠ '+' := by
  induction n using Nat.strong_induction_on with
  | _ n ih =>
    rw [natDecimal]
    split_ifs with h
    · intro c hc
      simp only [List.mem_singleton] at hc
      subst hc
      exact digitChar_ne_plus n
    · intro c hc
      rcases List.mem_append.1 hc with h' | h'
      · exact ih (n / 10) (Nat.div_lt_self (by omega) (by omega)) c h'
      · simp only [List.mem_singleton] at h'
        subst h'
        exact digitChar_ne_plus _

theorem stripPlus_natDecimal (n : Nat) : stripPlus (natDecimal n) = natDecimal n := by
  cases hnd : natDecimal n with
  | nil => exact absurd hnd (natDecimal_ne_nil n)
  | cons c cs =>
    have hc : c ≠ '+' := natDecimal_all_not_plus n c (by rw [hnd]; exact List.mem_cons_self c cs)
    simp [stripPlus, hc]

theorem splitOnceDot_append (l1 l2 : List Char) (h : ∀ c ∈ l1, c ≠ '.') :
    splitOnceDotAux (l1 ++ '.' :: l2) = some (l1, l2) := by
  induction l1 with
  | nil => simp [splitOnceDotAux]
  | cons c cs ih =>
    have hc : c ≠ '.' := h c (List.mem_cons_self c cs)
    simp only [List.cons_append, splitOnceDotAux, if_neg hc, List.append_eq]
    rw [ih (fun c' hc' => h c' (List.mem_cons_of_mem c hc'))]
    rfl

theorem parseDigitsAux_append (acc : Nat) (l1 l2 : List Char) :
    parseDigitsAux acc (l1 ++ l2) =
      (parseDigitsAux acc l1).bind (fun v => parseDigitsAux v l2) := by
  induction l1 generalizing acc with
  | nil => simp [parseDigitsAux]
  | cons c cs ih =>
    simp only [List.cons_append, parseDigitsAux]
    cases hd : digitVal c with
    | some d =>
      simp only []
      exact ih _
    | none => rfl

theorem digitVal_digitChar {d : Nat} (hd : d < 10) : digitVal (digitChar d) = some d := by
  interval_cases d <;> rfl

theorem parseDigitsAux_natDecimal (n : Nat) :
    ∀ acc, parseDigitsAux acc (natDecimal n) = some (acc * 10 ^ (natDecimal n).length + n) := by
  induction n using Nat.strong_induction_on with
  | _ n ih =>
    intro acc
    rw [natDecimal]
    split_ifs with h
    · simp only [parseDigitsAux, digitVal_digitChar h, List.length_singleton, pow_one]
    · rw [parseDigitsAux_append, ih (n / 10) (Nat.div_lt_self (by omega) (by omega)) acc]
      simp only [Option.some_bind, parseDigitsAux, digitVal_digitChar (show n % 10 < 10 by omega),
        List.length_append, List.length_singleton]
      have key :
          (acc * 10 ^ (natDecimal (n / 10)).length + n / 10) * 10 + n % 10 =
            acc * 10 ^ ((natDecimal (n / 10)).length + 1) + n := by
        have hdm : 10 * (n / 10) + n % 10 = n := Nat.div_add_mod n 10
        calc (acc * 10 ^ (natDecimal (n / 10)).length + n / 10) * 10 + n % 10
            = acc * (10 ^ (natDecimal (n / 10)).length * 10) + (10 * (n / 10) + n % 10) := by
              ring
          _ = acc * 10 ^ ((natDecimal (n / 10)).length + 1) + n := by
              rw [hdm, pow_succ]
      rw [key]

theorem parse_u64_natDecimal {n : Nat} (h : n < 2 ^ 64) :
    parse_u64 ⟨natDecimal n⟩ = some n := by
  unfold parse_u64
  show (let cs := stripPlus (natDecimal n); _) = _
  rw [stripPlus_natDecimal]
  rw [if_neg (natDecimal_ne_nil n), parseDigitsAux_natDecimal n 0]
  simp only [zero_mul, zero_add, Option.some_bind]
  rw [if_pos h]

/-- C10: rendering a NodeId with Display and parsing it back with FromStr
returns the same NodeId (the components being u64 values). -/
theorem nodeId_display_from_str_roundtrip (uid gen : Nat)
    (hu : uid < 2 ^ 64) (hg : gen < 2 ^ 64) :
    NodeId.from_str (NodeId.display ⟨uid, gen⟩) = some ⟨uid, gen⟩ := by
  unfold NodeId.display NodeId.from_str
  show (splitOnceDotAux (natDecimal uid ++ '.' :: natDecimal gen)).bind _ = _
  rw [splitOnceDot_append _ _ (natDecimal_all_not_dot uid)]
  simp only [Option.some_bind]
  rw [parse_u64_natDecimal hu]
  simp only [Option.some_bind]
  rw [parse_u64_natDecimal hg]
  rfl

/-- Witness for C10 at the concrete NodeId ⟨1, 2⟩, whose rendering is
"1.2". -/
theorem nodeId_display_from_str_roundtrip_witness :
    (1 : Nat) < 2 ^ 64 ∧ (2 : Nat) < 2 ^ 64 ∧
    NodeId.from_str (NodeId.display ⟨1, 2⟩) = some ⟨1, 2⟩ :=
  ⟨by norm_num, by norm_num,
    nodeId_display_from_str_roundtrip 1 2 (by norm_num) (by norm_num)⟩

end Council
